import Mathlib

/-!
Verification of the Featherbone real-time change-distribution subsystem
(src/server.js): the fetch coalescer (`processFetch`), the push-message
receiver (`receiver`), the websocket event-session lifecycle
(`handleEvents`, `doConnect`), the feather metadata subscription
(`subscribeToFeathers`, `registerDataRoute`), and the record lock store
(`datasource.lock` / `unlock`, modelled from the specification since their
implementation is outside the provided sources).

The JavaScript is shallowly embedded: each mutable global (the `pending`
array, the `isFetching` flag, the `eventSessions` and `eventKeys` objects,
the lock table) becomes a field of an explicit state record, and each event
handler becomes a pure state-transition function.  Asynchronous promise
resolution is modelled as an explicit event (`FetchEvent.resolve` /
`FetchEvent.fail`) delivered to the state machine.
-/

namespace Featherbone

/-! ### Generic association-list helpers

JavaScript objects (`eventSessions`, `eventKeys`, the catalog) are modelled
as association lists with string keys.  `lookupKey` is property read,
`eraseKey` is the `delete` operator (an object never holds a key twice, so
removing every binding coincides with removing the one binding). -/

def lookupKey {β : Type} (k : String) : List (String × β) → Option β
  | [] => none
  | (k₁, v) :: rest => if k₁ = k then some v else lookupKey k rest

def eraseKey {β : Type} (k : String) : List (String × β) → List (String × β)
  | [] => []
  | (k₁, v) :: rest =>
      if k₁ = k then eraseKey k rest else (k₁, v) :: eraseKey k rest

theorem lookupKey_eraseKey {β : Type} (k : String) (l : List (String × β)) :
    lookupKey k (eraseKey k l) = none := by
  induction l with
  | nil => rfl
  | cons kv rest ih =>
      obtain ⟨k₁, v⟩ := kv
      by_cases h : k₁ = k
      · simp [eraseKey, h, ih]
      · simp [eraseKey, lookupKey, h, ih]

theorem lookupKey_mem {β : Type} {k : String} {l : List (String × β)} {v : β}
    (h : lookupKey k l = some v) : (k, v) ∈ l := by
  induction l with
  | nil => simp [lookupKey] at h
  | cons kv rest ih =>
      obtain ⟨k₁, v₁⟩ := kv
      by_cases hk : k₁ = k
      · subst hk
        simp [lookupKey] at h
        simp [h]
      · simp [lookupKey, hk] at h
        exact List.mem_cons_of_mem _ (ih h)

/-! ### The fetch coalescer (src/server.js lines 1510-1539)

```js
let pending = [];
let isFetching = false;

function processFetch() {
    if (!isFetching && pending.length) {
        isFetching = true;
        let job = pending[0];
        let jobId = job.payload.id;
        let jobName = job.payload.name;
        datasource.request(job.payload, true).then(function (resp) {
            let jobs = pending.filter(
                (p) => (p.payload.id === jobId && p.payload.name === jobName)
            );
            jobs.forEach(function (thejob) {
                let idx = pending.indexOf(thejob);
                pending.splice(idx, 1);
                thejob.callback(resp);
            });
            isFetching = false;
            processFetch();
        }).catch(function (e) {
            console.error(e);
        });
    }
}
```

A queued job is a payload key (feather `name`, record `id`) plus a callback,
identified by a numeric tag (callbacks are distinct JS closures; the tag
models reference identity).  The state records the queue, the busy flag,
the multiset of requests currently outstanding at the Query Executor
(`inflight`), the log of all requests ever issued (`requests`), and the log
of callback invocations with the response each received (`delivered`). -/

structure Job where
  name : String
  id : String
  cb : Nat
deriving DecidableEq, Repr

/-- The filter predicate of the `.then` handler:
`p.payload.id === jobId && p.payload.name === jobName`. -/
def jobMatches (jobName jobId : String) (p : Job) : Bool :=
  p.id == jobId && p.name == jobName

/-- Embeds `pending.splice(pending.indexOf(thejob), 1)`: remove the first
occurrence of a job from the queue. -/
def removeFirst (j : Job) : List Job → List Job
  | [] => []
  | x :: xs => if x = j then xs else x :: removeFirst j xs

/-- The `jobs.forEach` loop's net effect on `pending`: splice each matched
job out in turn. -/
def spliceOut : List Job → List Job → List Job
  | [], l => l
  | j :: js, l => spliceOut js (removeFirst j l)

structure FetchState where
  pending : List Job
  isFetching : Bool
  inflight : List (String × String)
  requests : List (String × String)
  delivered : List (Nat × Nat)
deriving DecidableEq, Repr

def initFetch : FetchState :=
  { pending := [], isFetching := false, inflight := [], requests := [],
    delivered := [] }

/-- Function `processFetch()`: when not busy and the queue is non-empty, mark busy
and issue `datasource.request(pending[0].payload)`. -/
def processFetch (s : FetchState) : FetchState :=
  match s.isFetching, s.pending with
  | false, job :: _ =>
      { s with
        isFetching := true
        inflight := s.inflight ++ [(job.name, job.id)]
        requests := s.requests ++ [(job.name, job.id)] }
  | _, _ => s

/-- The `.then` continuation for the request issued for `(jobName, jobId)`:
collect every matching queued job, splice each out and invoke its callback
with the single response, clear the busy flag, and run `processFetch()`
again. -/
def onFetchResolve (jobName jobId : String) (r : Nat) (s : FetchState) :
    FetchState :=
  processFetch
    { s with
      pending := spliceOut (s.pending.filter (jobMatches jobName jobId)) s.pending
      delivered := s.delivered ++
        (s.pending.filter (jobMatches jobName jobId)).map (fun j => (j.cb, r))
      isFetching := false }

/-- External events driving the coalescer: a new entry pushed by `receiver`
(followed by its `processFetch()` call), resolution of the outstanding
request with a response, or rejection of the outstanding request (whose
`.catch` handler only logs: it touches neither `pending`, nor the
callbacks, nor `isFetching`). -/
inductive FetchEvent where
  | push (j : Job)
  | resolve (r : Nat)
  | fail
deriving DecidableEq, Repr

def fetchStep (s : FetchState) (e : FetchEvent) : FetchState :=
  match e with
  | .push j => processFetch { s with pending := s.pending ++ [j] }
  | .resolve r =>
      match s.inflight with
      | [(n, i)] => onFetchResolve n i r { s with inflight := [] }
      | _ => s
  | .fail =>
      match s.inflight with
      | [_] => { s with inflight := [] }
      | _ => s

def runFetch (es : List FetchEvent) : FetchState :=
  es.foldl fetchStep initFetch

/-- A sequence of pushes arriving while other work is in flight. -/
def pushAll (s : FetchState) (js : List Job) : FetchState :=
  js.foldl (fun t j => fetchStep t (.push j)) s

/-! #### Basic reductions -/

theorem processFetch_busy (s : FetchState) (h : s.isFetching = true) :
    processFetch s = s := by
  unfold processFetch
  rw [h]

theorem processFetch_nil (s : FetchState) (h : s.pending = []) :
    processFetch s = s := by
  unfold processFetch
  rw [h]
  cases s.isFetching <;> rfl

theorem processFetch_start (s : FetchState) (job : Job) (rest : List Job)
    (hb : s.isFetching = false) (hp : s.pending = job :: rest) :
    processFetch s =
      { s with
        isFetching := true
        inflight := s.inflight ++ [(job.name, job.id)]
        requests := s.requests ++ [(job.name, job.id)] } := by
  unfold processFetch
  rw [hb, hp]

theorem fetchStep_push (s : FetchState) (j : Job) :
    fetchStep s (.push j) = processFetch { s with pending := s.pending ++ [j] } :=
  rfl

theorem fetchStep_push_busy (s : FetchState) (j : Job)
    (h : s.isFetching = true) :
    fetchStep s (.push j) = { s with pending := s.pending ++ [j] } := by
  rw [fetchStep_push]
  exact processFetch_busy _ h

theorem pushAll_busy (s : FetchState) (js : List Job)
    (h : s.isFetching = true) :
    pushAll s js = { s with pending := s.pending ++ js } := by
  induction js generalizing s with
  | nil => simp [pushAll]
  | cons j js ih =>
      show pushAll (fetchStep s (.push j)) js = _
      rw [fetchStep_push_busy s j h]
      rw [ih { s with pending := s.pending ++ [j] } h]
      simp

theorem fetchStep_resolve (s : FetchState) (n i : String) (r : Nat)
    (h : s.inflight = [(n, i)]) :
    fetchStep s (.resolve r) = onFetchResolve n i r { s with inflight := [] } := by
  unfold fetchStep
  rw [h]

/-! #### The splice loop removes exactly the matched jobs -/

theorem spliceOut_cons_of_all {p : Job → Bool} {x : Job}
    (js : List Job) (xs : List Job)
    (hall : ∀ j ∈ js, p j = true) (hx : p x = false) :
    spliceOut js (x :: xs) = x :: spliceOut js xs := by
  induction js generalizing xs with
  | nil => rfl
  | cons j js ih =>
      have hj : p j = true := hall j (List.mem_cons_self _ _)
      have hxj : ¬(x = j) := by
        intro hcontra
        rw [hcontra, hj] at hx
        cases hx
      show spliceOut js (removeFirst j (x :: xs)) = x :: spliceOut js (removeFirst j xs)
      rw [show removeFirst j (x :: xs) = x :: removeFirst j xs by
        simp [removeFirst, hxj]]
      exact ih (removeFirst j xs) (fun a ha => hall a (List.mem_cons_of_mem _ ha))

theorem spliceOut_filter (p : Job → Bool) (l : List Job) :
    spliceOut (l.filter p) l = l.filter (fun x => !(p x)) := by
  induction l with
  | nil => rfl
  | cons x xs ih =>
      by_cases hx : p x = true
      · rw [List.filter_cons, if_pos hx]
        show spliceOut (xs.filter p) (removeFirst x (x :: xs)) = _
        rw [show removeFirst x (x :: xs) = xs by simp [removeFirst]]
        rw [ih, List.filter_cons]
        simp [hx]
      · have hx' : p x = false := by
          cases hpx : p x
          · rfl
          · exact absurd hpx hx
        rw [List.filter_cons, if_neg hx]
        rw [spliceOut_cons_of_all (xs.filter p) xs
          (fun j hj => List.of_mem_filter hj) hx']
        rw [ih, List.filter_cons]
        simp [hx']

/-! #### Reachability invariant: at most one outstanding request -/

/-- Invariant of every reachable coalescer state: at most one request is
outstanding at the Query Executor; an outstanding request implies the busy
flag; and an idle coalescer has an empty queue. -/
def FetchInv (s : FetchState) : Prop :=
  s.inflight.length ≤ 1 ∧
  (s.inflight ≠ [] → s.isFetching = true) ∧
  (s.isFetching = false → s.pending = [])

theorem fetchInv_init : FetchInv initFetch := by
  refine ⟨by simp [initFetch], fun h => absurd rfl h, fun _ => rfl⟩

theorem fetchInv_processFetch_of (t : FetchState) (ht : t.inflight = [])
    (hb : t.isFetching = false) : FetchInv (processFetch t) := by
  cases hp : t.pending with
  | nil =>
      rw [processFetch_nil t hp]
      exact ⟨by rw [ht]; simp, fun h => absurd ht h, fun _ => hp⟩
  | cons job rest =>
      rw [processFetch_start t job rest hb hp]
      refine ⟨by rw [ht]; simp, fun _ => rfl, fun hf => by cases hf⟩

theorem fetchInv_step (s : FetchState) (e : FetchEvent) (h : FetchInv s) :
    FetchInv (fetchStep s e) := by
  obtain ⟨h1, h2, h3⟩ := h
  cases e with
  | push j =>
      cases hb : s.isFetching with
      | true =>
          rw [fetchStep_push_busy s j hb]
          refine ⟨h1, fun _ => hb, fun hf => ?_⟩
          have hf' : s.isFetching = false := hf
          rw [hb] at hf'
          cases hf'
      | false =>
          have hin : s.inflight = [] := by
            by_contra hne
            rw [h2 hne] at hb
            cases hb
          exact fetchInv_processFetch_of _ hin hb
  | resolve r =>
      cases hin : s.inflight with
      | nil =>
          show FetchInv (match s.inflight with
            | [(n, i)] => onFetchResolve n i r { s with inflight := [] }
            | _ => s)
          rw [hin]
          exact ⟨h1, h2, h3⟩
      | cons kv rest =>
          cases rest with
          | nil =>
              obtain ⟨n, i⟩ := kv
              rw [fetchStep_resolve s n i r hin]
              exact fetchInv_processFetch_of _ rfl rfl
          | cons kv₂ rest₂ =>
              show FetchInv (match s.inflight with
                | [(n, i)] => onFetchResolve n i r { s with inflight := [] }
                | _ => s)
              rw [hin]
              exact ⟨h1, h2, h3⟩
  | fail =>
      cases hin : s.inflight with
      | nil =>
          show FetchInv (match s.inflight with
            | [_] => { s with inflight := ([] : List (String × String)) }
            | _ => s)
          rw [hin]
          exact ⟨h1, h2, h3⟩
      | cons kv rest =>
          cases rest with
          | nil =>
              have hfet : s.isFetching = true := h2 (by rw [hin]; simp)
              show FetchInv (match s.inflight with
                | [_] => { s with inflight := ([] : List (String × String)) }
                | _ => s)
              rw [hin]
              refine ⟨by simp, fun hne => hfet, fun hf => ?_⟩
              rw [hfet] at hf
              cases hf
          | cons kv₂ rest₂ =>
              show FetchInv (match s.inflight with
                | [_] => { s with inflight := ([] : List (String × String)) }
                | _ => s)
              rw [hin]
              exact ⟨h1, h2, h3⟩

theorem fetchInv_foldl (es : List FetchEvent) (s : FetchState)
    (h : FetchInv s) : FetchInv (es.foldl fetchStep s) := by
  induction es generalizing s with
  | nil => exact h
  | cons e es ih => exact ih _ (fetchInv_step s e h)

theorem fetchInv_run (es : List FetchEvent) : FetchInv (runFetch es) :=
  fetchInv_foldl es initFetch fetchInv_init

/-! #### Field projections of the resolve continuation -/

theorem processFetch_delivered (t : FetchState) :
    (processFetch t).delivered = t.delivered := by
  unfold processFetch
  split <;> rfl

theorem processFetch_pending (t : FetchState) :
    (processFetch t).pending = t.pending := by
  unfold processFetch
  split <;> rfl

theorem onFetchResolve_delivered (n i : String) (r : Nat) (t : FetchState) :
    (onFetchResolve n i r t).delivered =
      t.delivered ++ (t.pending.filter (jobMatches n i)).map (fun j => (j.cb, r)) := by
  unfold onFetchResolve
  rw [processFetch_delivered]

theorem onFetchResolve_pending (n i : String) (r : Nat) (t : FetchState) :
    (onFetchResolve n i r t).pending =
      t.pending.filter (fun x => !(jobMatches n i x)) := by
  unfold onFetchResolve
  rw [processFetch_pending]
  exact spliceOut_filter _ _

/-- A job that survives the matching filter has a key different from the
resolved key. -/
theorem jobMatches_false_key_ne {n i : String} {j : Job}
    (h : jobMatches n i j = false) : (j.name, j.id) ≠ (n, i) := by
  intro heq
  obtain ⟨hn, hi⟩ := Prod.mk.injEq .. ▸ heq
  simp [jobMatches, hn, hi] at h

theorem onFetchResolve_requests (n i : String) (r : Nat) (t : FetchState) :
    (onFetchResolve n i r t).requests =
      t.requests ++
        (match t.pending.filter (fun x => !(jobMatches n i x)) with
         | [] => []
         | job :: _ => [(job.name, job.id)]) := by
  unfold onFetchResolve
  rw [show spliceOut (t.pending.filter (jobMatches n i)) t.pending =
      t.pending.filter (fun x => !(jobMatches n i x)) from spliceOut_filter _ _]
  cases hpend : t.pending.filter (fun x => !(jobMatches n i x)) with
  | nil =>
      rw [processFetch_nil _ rfl]
      simp
  | cons job rest =>
      rw [processFetch_start _ job rest rfl rfl]

/-! ### Claim theorems for the coalescer -/

/-- Claim C1: while a fetch for key `(n, i)` is in flight, any number of
additional fetch requests for the same key issue no new query: the request
log does not grow during the pushes, resolution adds no further request for
that key, and every one of the waiting callbacks is invoked with the one
result of the single in-flight query. -/
theorem fetch_coalesces (s : FetchState) (n i : String) (r : Nat)
    (js : List Job)
    (hb : s.isFetching = true) (hin : s.inflight = [(n, i)])
    (hjs : ∀ j ∈ js, jobMatches n i j = true) :
    (pushAll s js).requests = s.requests ∧
    (fetchStep (pushAll s js) (.resolve r)).delivered =
      s.delivered ++
        ((s.pending ++ js).filter (jobMatches n i)).map (fun j => (j.cb, r)) ∧
    (∀ j ∈ js, (j.cb, r) ∈ (fetchStep (pushAll s js) (.resolve r)).delivered) ∧
    (fetchStep (pushAll s js) (.resolve r)).requests.count (n, i) =
      s.requests.count (n, i) := by
  have hpush : pushAll s js = { s with pending := s.pending ++ js } :=
    pushAll_busy s js hb
  have hres : fetchStep (pushAll s js) (.resolve r) =
      onFetchResolve n i r
        { s with pending := s.pending ++ js, inflight := [] } := by
    rw [fetchStep_resolve _ n i r (by rw [hpush]; exact hin), hpush]
  have hdel : (fetchStep (pushAll s js) (.resolve r)).delivered =
      s.delivered ++
        ((s.pending ++ js).filter (jobMatches n i)).map (fun j => (j.cb, r)) := by
    rw [hres, onFetchResolve_delivered]
  refine ⟨by rw [hpush], hdel, ?_, ?_⟩
  · intro j hj
    rw [hdel]
    refine List.mem_append_right _ (List.mem_map.mpr ⟨j, ?_, rfl⟩)
    rw [List.filter_append]
    exact List.mem_append_right _
      ((List.filter_eq_self.mpr hjs).symm ▸ hj)
  · rw [hres, onFetchResolve_requests n i r _]
    cases hpend : (s.pending ++ js).filter (fun x => !(jobMatches n i x)) with
    | nil => simp
    | cons job rest =>
        have hjob : jobMatches n i job = false := by
          have := List.of_mem_filter (l := s.pending ++ js)
            (p := fun x => !(jobMatches n i x))
            (by rw [hpend]; exact List.mem_cons_self _ _)
          simpa using this
        have hne : ¬(((job.name, job.id) : String × String) = (n, i)) :=
          jobMatches_false_key_ne hjob
        rw [List.count_append]
        simp [List.count_singleton, hne]

/-- Claim C6: in every reachable coalescer state at most one query is
outstanding; a push while the busy flag is set issues no query; and when
the outstanding query for `(n, i)` resolves, the coalescer immediately
issues exactly one query for the head of the remaining queue (none if the
queue has emptied). -/
theorem fetch_serialized (es : List FetchEvent) :
    (runFetch es).inflight.length ≤ 1 ∧
    (∀ j : Job, (runFetch es).isFetching = true →
      (fetchStep (runFetch es) (.push j)).requests = (runFetch es).requests) ∧
    (∀ n i : String, ∀ r : Nat, (runFetch es).inflight = [(n, i)] →
      (fetchStep (runFetch es) (.resolve r)).requests =
        (runFetch es).requests ++
          (match (runFetch es).pending.filter
              (fun x => !(jobMatches n i x)) with
           | [] => []
           | job :: _ => [(job.name, job.id)])) := by
  refine ⟨(fetchInv_run es).1, ?_, ?_⟩
  · intro j hb
    rw [fetchStep_push_busy _ j hb]
  · intro n i r hin
    rw [fetchStep_resolve _ n i r hin,
      onFetchResolve_requests n i r _]

/-- Claim C10: resolving the in-flight fetch for key `(n, i)` removes
exactly the queued entries matching that id and name — each of their
callbacks receives the one response — while every entry for any other key
stays in the queue in its original relative order. -/
theorem fetch_resolve_frame (s : FetchState) (n i : String) (r : Nat)
    (hin : s.inflight = [(n, i)]) :
    (fetchStep s (.resolve r)).pending =
      s.pending.filter (fun x => !(jobMatches n i x)) ∧
    (fetchStep s (.resolve r)).delivered =
      s.delivered ++
        (s.pending.filter (jobMatches n i)).map (fun j => (j.cb, r)) := by
  rw [fetchStep_resolve s n i r hin]
  exact ⟨onFetchResolve_pending n i r _, onFetchResolve_delivered n i r _⟩

/-- Claim C2 (divergence witness): a rejected fetch invokes no waiting
callback and leaves `isFetching` stuck at `true`, so every later push for
any key is queued but never fetched and never delivered — the `.catch`
handler only logs.  Concretely, two waiters for `("contact", "r1")` are
silently dropped by a failure and a third request afterwards issues no
query. -/
theorem fetch_failure_drops_waiters :
    (runFetch [.push ⟨"contact", "r1", 0⟩, .push ⟨"contact", "r1", 1⟩,
      .fail]).delivered = [] ∧
    (runFetch [.push ⟨"contact", "r1", 0⟩, .push ⟨"contact", "r1", 1⟩,
      .fail]).isFetching = true ∧
    (runFetch [.push ⟨"contact", "r1", 0⟩, .push ⟨"contact", "r1", 1⟩,
      .fail]).pending =
      [⟨"contact", "r1", 0⟩, ⟨"contact", "r1", 1⟩] ∧
    (∀ js : List Job,
      (pushAll (runFetch [.push ⟨"contact", "r1", 0⟩,
        .push ⟨"contact", "r1", 1⟩, .fail]) js).requests =
        [("contact", "r1")] ∧
      (pushAll (runFetch [.push ⟨"contact", "r1", 0⟩,
        .push ⟨"contact", "r1", 1⟩, .fail]) js).delivered = []) := by
  refine ⟨rfl, rfl, rfl, ?_⟩
  intro js
  rw [pushAll_busy _ js rfl]
  exact ⟨rfl, rfl⟩

/-- Concrete instance of the coalescing theorem: one fetch for
`("contact", "r1")` in flight with one queued waiter, two more requests for
the same key arrive, the fetch resolves with response `5`: no further query
is issued and all three callbacks receive `5`. -/
theorem fetch_coalesces_witness :
    (pushAll
        ⟨[⟨"contact", "r1", 0⟩], true, [("contact", "r1")],
          [("contact", "r1")], []⟩
        [⟨"contact", "r1", 1⟩, ⟨"contact", "r1", 2⟩]).requests =
      [("contact", "r1")] ∧
    (fetchStep
        (pushAll
          ⟨[⟨"contact", "r1", 0⟩], true, [("contact", "r1")],
            [("contact", "r1")], []⟩
          [⟨"contact", "r1", 1⟩, ⟨"contact", "r1", 2⟩])
        (.resolve 5)).delivered = [(0, 5), (1, 5), (2, 5)] := by
  have h := fetch_coalesces
    ⟨[⟨"contact", "r1", 0⟩], true, [("contact", "r1")],
      [("contact", "r1")], []⟩
    "contact" "r1" 5 [⟨"contact", "r1", 1⟩, ⟨"contact", "r1", 2⟩]
    rfl rfl (by decide)
  exact ⟨h.1, by rw [h.2.1]; decide⟩

/-- Concrete instance of the serialization theorem: with a fetch for
`("contact", "r1")` in flight and `("widget", "r2")` queued behind it, a
further push issues no query, and resolution starts exactly one query for
the next distinct queued key. -/
theorem fetch_serialized_witness :
    (runFetch [.push ⟨"contact", "r1", 0⟩,
        .push ⟨"widget", "r2", 1⟩]).inflight.length ≤ 1 ∧
    (fetchStep (runFetch [.push ⟨"contact", "r1", 0⟩,
        .push ⟨"widget", "r2", 1⟩]) (.push ⟨"contact", "r1", 2⟩)).requests =
      [("contact", "r1")] ∧
    (fetchStep (runFetch [.push ⟨"contact", "r1", 0⟩,
        .push ⟨"widget", "r2", 1⟩]) (.resolve 9)).requests =
      [("contact", "r1"), ("widget", "r2")] := by
  have h := fetch_serialized
    [.push ⟨"contact", "r1", 0⟩, .push ⟨"widget", "r2", 1⟩]
  refine ⟨h.1, ?_, ?_⟩
  · rw [h.2.1 ⟨"contact", "r1", 2⟩ rfl]
    decide
  · rw [h.2.2 "contact" "r1" 9 rfl]
    decide

/-- Concrete instance of the frame theorem: resolving `("contact", "r1")`
with response `4` drains exactly the two matching entries, in order, and
leaves the `("widget", "r2")` entry untouched. -/
theorem fetch_resolve_frame_witness :
    (fetchStep
        ⟨[⟨"contact", "r1", 0⟩, ⟨"widget", "r2", 1⟩, ⟨"contact", "r1", 2⟩],
          true, [("contact", "r1")], [("contact", "r1")], []⟩
        (.resolve 4)).pending = [⟨"widget", "r2", 1⟩] ∧
    (fetchStep
        ⟨[⟨"contact", "r1", 0⟩, ⟨"widget", "r2", 1⟩, ⟨"contact", "r1", 2⟩],
          true, [("contact", "r1")], [("contact", "r1")], []⟩
        (.resolve 4)).delivered = [(0, 4), (2, 4)] := by
  have h := fetch_resolve_frame
    ⟨[⟨"contact", "r1", 0⟩, ⟨"widget", "r2", 1⟩, ⟨"contact", "r1", 2⟩],
      true, [("contact", "r1")], [("contact", "r1")], []⟩
    "contact" "r1" 4 rfl
  exact ⟨by rw [h.1]; decide, by rw [h.2]; decide⟩

/-! ### Event sessions and the receiver (src/server.js lines 1541-1578)

```js
function receiver(message, pTenant) {
    let eventKey = message.payload.subscription.eventkey;
    let change = message.payload.subscription.change;
    let fn = eventSessions[eventKey];

    function cb(resp) {
        if (resp) {
            message.payload.data = resp;
        }
        fn(message);
    }

    if (fn) {
        if (fn.fetch === false) {
            cb();
            return;
        }
        // If record change, fetch new record
        if (change === "create" || change === "update") {
            pending.push({
                payload: {
                    name: message.payload.data.table.toCamelCase(true),
                    method: "GET",
                    user: systemUser,
                    id: message.payload.data.id,
                    tenant: pTenant
                },
                callback: cb
            });
            processFetch();
            return;
        }
        cb();
    }
}
```

A handler stored in `eventSessions` is a JS closure, identified here by a
numeric `tag` (reference identity), carrying the optional `fetch` property
(`fn.fetch === false` only for the catalog subscription handler, src line
1476; an unset property is not `=== false`, so `fetch` defaults to `true`)
and the optional `sessionID` property (set only for websocket client
handlers, src line 1603).  `toCamelCase` is a string helper from the core
library outside these sources; `receiver` is parametrised over it.

The observable outcome of a `receiver` call is the list of immediate
handler invocations — `(tag, message, resp)` where `resp = none` means
`cb()` was invoked with no response, leaving `message.payload.data`
untouched — together with the list of entries appended to the coalescer's
`pending` queue (followed by its `processFetch()` call, whose behaviour is
the `fetchStep .push` of the coalescer model above). -/

structure Handler where
  fetch : Bool
  sessionID : Option String
  tag : Nat
deriving DecidableEq, Repr

structure EvSubscription where
  eventkey : String
  change : String
deriving DecidableEq, Repr

structure EvRecData where
  table : String
  id : String
deriving DecidableEq, Repr

structure EvPayload where
  subscription : EvSubscription
  data : EvRecData
deriving DecidableEq, Repr

structure EvMessage where
  payload : EvPayload
deriving DecidableEq, Repr

/-- An entry appended to `pending`: the camel-cased feather name, the
record id, and the callback (identified by the owning handler's tag). -/
structure PendEntry where
  name : String
  id : String
  tag : Nat
deriving DecidableEq, Repr

structure ReceiverResult where
  calls : List (Nat × EvMessage × Option Nat)
  pushes : List PendEntry
deriving DecidableEq, Repr

def receiver (camel : String → String) (sessions : List (String × Handler))
    (message : EvMessage) : ReceiverResult :=
  match lookupKey message.payload.subscription.eventkey sessions with
  | none => ⟨[], []⟩
  | some fn =>
      if fn.fetch = false then
        ⟨[(fn.tag, message, none)], []⟩
      else if message.payload.subscription.change = "create" ∨
          message.payload.subscription.change = "update" then
        ⟨[], [⟨camel message.payload.data.table,
          message.payload.data.id, fn.tag⟩]⟩
      else
        ⟨[(fn.tag, message, none)], []⟩

/-- Claim C5: dispatching a change message whose event key has no handler
registered in `eventSessions` is a silent no-op — no handler is invoked, no
fetch is enqueued, and the function returns normally without touching the
registry or the queue. -/
theorem receiver_unknown_key_noop (camel : String → String)
    (sessions : List (String × Handler)) (message : EvMessage)
    (h : lookupKey message.payload.subscription.eventkey sessions = none) :
    receiver camel sessions message = ⟨[], []⟩ := by
  unfold receiver
  rw [h]

theorem receiver_unknown_key_noop_witness :
    receiver id [("k2", ⟨true, none, 7⟩)]
      ⟨⟨⟨"k1", "update"⟩, ⟨"contact", "r1"⟩⟩⟩ = ⟨[], []⟩ :=
  receiver_unknown_key_noop id [("k2", ⟨true, none, 7⟩)]
    ⟨⟨⟨"k1", "update"⟩, ⟨"contact", "r1"⟩⟩⟩ (by decide)

/-- Claim C7: when the registered handler has `fetch === false`, the
handler is invoked exactly once, immediately, with the original message
(`resp = none`: the data payload is not overwritten), and nothing is
appended to the pending queue — whatever the change kind, including
`create` and `update`. -/
theorem receiver_nofetch_immediate (camel : String → String)
    (sessions : List (String × Handler)) (message : EvMessage)
    (fn : Handler)
    (h : lookupKey message.payload.subscription.eventkey sessions = some fn)
    (hf : fn.fetch = false) :
    receiver camel sessions message = ⟨[(fn.tag, message, none)], []⟩ := by
  unfold receiver
  rw [h]
  simp [hf]

theorem receiver_nofetch_immediate_witness :
    receiver id [("k1", ⟨false, none, 3⟩)]
      ⟨⟨⟨"k1", "create"⟩, ⟨"contact", "r1"⟩⟩⟩ =
      ⟨[(3, ⟨⟨⟨"k1", "create"⟩, ⟨"contact", "r1"⟩⟩⟩, none)], []⟩ :=
  receiver_nofetch_immediate id [("k1", ⟨false, none, 3⟩)]
    ⟨⟨⟨"k1", "create"⟩, ⟨"contact", "r1"⟩⟩⟩ ⟨false, none, 3⟩
    (by decide) rfl

/-- Every immediate handler invocation performed by `receiver` belongs to a
handler registered in `eventSessions`: delivery can only go through the
registry. -/
theorem receiver_call_tag_mem (camel : String → String)
    (sessions : List (String × Handler)) (message : EvMessage)
    (t : Nat) (m : EvMessage) (o : Option Nat)
    (h : (t, m, o) ∈ (receiver camel sessions message).calls) :
    ∃ k fn, (k, fn) ∈ sessions ∧ fn.tag = t := by
  unfold receiver at h
  cases hl : lookupKey message.payload.subscription.eventkey sessions with
  | none =>
      rw [hl] at h
      simp at h
  | some fn =>
      rw [hl] at h
      refine ⟨message.payload.subscription.eventkey, fn, lookupKey_mem hl, ?_⟩
      by_cases hf : fn.fetch = false
      · simp [hf] at h
        exact h.1.symm
      · by_cases hc : message.payload.subscription.change = "create" ∨
            message.payload.subscription.change = "update"
        · simp [hf, hc] at h
        · simp [hf, hc] at h
          exact h.1.symm

/-! ### Websocket event-session lifecycle
(src/server.js lines 1371-1384 and 1580-1620)

`doConnect` issues a fresh event key and records
`eventKeys[key] = {sessionID, tenant}`.  The `ws.on("message")` handler of
`handleEvents` receives the key from the socket: a key absent from
`eventKeys` is answered with `"Invalid event key " + key` on the socket and
installs nothing; a known key installs a delivery handler (a fresh closure,
identified by `wsTag`) carrying the owning `sessionID`.  The
`ws.on("close")` handler deletes the handler, unsubscribes everything owned
by the key and releases its locks. -/

structure EventKeyEntry where
  sessionID : String
  tenant : Option String
deriving DecidableEq, Repr

/-- Endpoint `doConnect` (src lines 1371-1384): bind a freshly created key to the
requesting session. -/
def doConnect (eventKeys : List (String × EventKeyEntry))
    (key sessionID : String) (tenant : Option String) :
    List (String × EventKeyEntry) :=
  (key, ⟨sessionID, tenant⟩) :: eventKeys

/-- The `ws.on("message")` handler (src lines 1585-1606).  Returns the
strings written to the socket and the updated `eventSessions` registry. -/
def wsIncoming (eventKeys : List (String × EventKeyEntry))
    (sessions : List (String × Handler)) (key : String) (wsTag : Nat) :
    List String × List (String × Handler) :=
  match lookupKey key eventKeys with
  | none => (["Invalid event key " ++ key], sessions)
  | some entry =>
      ([], (key, ⟨true, some entry.sessionID, wsTag⟩) :: eraseKey key sessions)

/-- Claim C9: a websocket presenting an event key never issued by
`doConnect` is answered with exactly `"Invalid event key "` followed by the
key, the `eventSessions` registry is left unchanged, and — provided the
fresh connection closure `wsTag` is not already registered — no `receiver`
dispatch ever invokes that connection's callback. -/
theorem ws_invalid_key_rejected (eventKeys : List (String × EventKeyEntry))
    (sessions : List (String × Handler)) (key : String) (wsTag : Nat)
    (h : lookupKey key eventKeys = none) :
    (wsIncoming eventKeys sessions key wsTag).1 =
      ["Invalid event key " ++ key] ∧
    (wsIncoming eventKeys sessions key wsTag).2 = sessions ∧
    (∀ (camel : String → String) (message : EvMessage) (t : Nat)
        (m : EvMessage) (o : Option Nat),
      (∀ kv ∈ sessions, kv.2.tag ≠ wsTag) →
      (t, m, o) ∈
        (receiver camel (wsIncoming eventKeys sessions key wsTag).2
          message).calls →
      t ≠ wsTag) := by
  have hw : wsIncoming eventKeys sessions key wsTag =
      (["Invalid event key " ++ key], sessions) := by
    unfold wsIncoming
    rw [h]
  refine ⟨by rw [hw], by rw [hw], ?_⟩
  intro camel message t m o hfresh hmem
  rw [hw] at hmem
  obtain ⟨k, fn, hkfn, htag⟩ :=
    receiver_call_tag_mem camel sessions message t m o hmem
  intro hcontra
  exact hfresh (k, fn) hkfn (htag.trans hcontra)

theorem ws_invalid_key_rejected_witness :
    (wsIncoming [("issued", ⟨"sess1", none⟩)]
      [("issued", ⟨true, some "sess1", 1⟩)] "bogus" 2).1 =
      ["Invalid event key " ++ "bogus"] ∧
    (wsIncoming [("issued", ⟨"sess1", none⟩)]
      [("issued", ⟨true, some "sess1", 1⟩)] "bogus" 2).2 =
      [("issued", ⟨true, some "sess1", 1⟩)] := by
  have h := ws_invalid_key_rejected [("issued", ⟨"sess1", none⟩)]
    [("issued", ⟨true, some "sess1", 1⟩)] "bogus" 2 (by decide)
  exact ⟨h.1, h.2.1⟩

/-! ### The record lock store

`datasource.lock` / `datasource.unlock` are called by the HTTP handlers
`doLock` / `doUnlock` (src/server.js lines 695-732) and by the websocket
close handler (src lines 1613-1615), but their implementation is not among
the provided sources; they are modelled from the specification
(sections 4.6 and 6): one row per active lock, keyed by record id, holding
username and owning event key; acquisition fails with a LockHeld error
naming the current holder unless the record is free or held by the same
event key and username; release is by record id and username, or by event
key on disconnect, and releasing a non-existent lock is not an error. -/

structure Lock where
  id : String
  username : String
  eventKey : String
  created : Nat
deriving DecidableEq, Repr

structure Subscription where
  id : String
  eventKey : String
deriving DecidableEq, Repr

inductive UnlockCriteria where
  | byRecord (id username : String)
  | byEventKey (eventKey : String)
deriving DecidableEq, Repr

namespace datasource

/-- Modelled from the spec: `datasource.lock(id, username, eventKey, …)`
(spec section 4.6) — succeed if the record is free, succeed idempotently if
the existing lock is held by the same event key and username, otherwise
fail with a LockHeld error naming the current holder and change nothing. -/
def lock (locks : List Lock) (recordId username eventKey : String)
    (now : Nat) : Except String (List Lock) :=
  match locks.find? (fun l => l.id == recordId) with
  | none => .ok (locks ++ [⟨recordId, username, eventKey, now⟩])
  | some l =>
      if l.eventKey == eventKey && l.username == username then .ok locks
      else .error ("Record is locked by " ++ l.username)

/-- Modelled from the spec: `datasource.unlock(criteria, …)` (spec section
4.6) — remove the lock matching record id and username, or every lock owned
by an event key when unlocking due to disconnect; removing nothing is not
an error. -/
def unlock (locks : List Lock) : UnlockCriteria → List Lock
  | .byRecord id username =>
      locks.filter (fun l => !(l.id == id && l.username == username))
  | .byEventKey eventKey => locks.filter (fun l => l.eventKey != eventKey)

/-- Modelled from the spec: `datasource.unsubscribe(eventKey, "instance",
tenant)` (spec section 4.4) — remove every subscription owned by the event
key. -/
def unsubscribe (subs : List Subscription) (eventKey : String) :
    List Subscription :=
  subs.filter (fun s => s.eventKey != eventKey)

end datasource

/-- One client-visible operation on the shared lock store. -/
inductive LockOp where
  | lock (id username eventKey : String) (now : Nat)
  | unlock (c : UnlockCriteria)
deriving DecidableEq, Repr

def applyLockOp (locks : List Lock) : LockOp → List Lock
  | .lock id u k now =>
      match datasource.lock locks id u k now with
      | .ok locks₁ => locks₁
      | .error _ => locks
  | .unlock c => datasource.unlock locks c

def runLocks (ops : List LockOp) : List Lock :=
  ops.foldl applyLockOp []

/-- At most one lock per record id. -/
def LocksWF (locks : List Lock) : Prop :=
  (locks.map Lock.id).Nodup

theorem locksWF_lock (locks : List Lock) (id u k : String) (now : Nat)
    (h : LocksWF locks) : LocksWF (applyLockOp locks (.lock id u k now)) := by
  show LocksWF (match datasource.lock locks id u k now with
    | .ok locks₁ => locks₁
    | .error _ => locks)
  unfold datasource.lock
  cases hf : locks.find? (fun l => l.id == id) with
  | none =>
      have hid : id ∉ locks.map Lock.id := by
        intro hmem
        obtain ⟨l, hl, hlid⟩ := List.mem_map.mp hmem
        have := List.find?_eq_none.mp hf l hl
        rw [hlid] at this
        simp at this
      show LocksWF (locks ++ [⟨id, u, k, now⟩])
      unfold LocksWF
      rw [List.map_append]
      rw [List.nodup_append]
      refine ⟨h, List.nodup_singleton _, ?_⟩
      intro a ha hb
      simp at hb
      rw [hb] at ha
      exact hid ha
  | some l =>
      by_cases hk : (l.eventKey == k && l.username == u) = true
      · simp [hk]
        exact h
      · rw [Bool.not_eq_true] at hk
        simp [hk]
        exact h

theorem locksWF_unlock (locks : List Lock) (c : UnlockCriteria)
    (h : LocksWF locks) : LocksWF (applyLockOp locks (.unlock c)) := by
  show LocksWF (datasource.unlock locks c)
  cases c with
  | byRecord id username =>
      exact ((List.filter_sublist _).map Lock.id).nodup h
  | byEventKey k =>
      exact ((List.filter_sublist _).map Lock.id).nodup h

theorem locksWF_run (ops : List LockOp) : LocksWF (runLocks ops) := by
  have hgen : ∀ (ops : List LockOp) (locks : List Lock), LocksWF locks →
      LocksWF (ops.foldl applyLockOp locks) := by
    intro ops
    induction ops with
    | nil => intro locks h; exact h
    | cons op ops ih =>
        intro locks h
        cases op with
        | lock id u k now => exact ih _ (locksWF_lock locks id u k now h)
        | unlock c => exact ih _ (locksWF_unlock locks c h)
  exact hgen ops [] (by simp [LocksWF])

/-- Claim C3: at most one lock ever exists per record id (over every
sequence of lock and unlock operations from an empty store), and a lock
request for a record held by a different event key always fails with a
LockHeld error naming the current holder, leaving the lock store — and so
the existing lock's holder, event key and acquisition time — unchanged. -/
theorem lock_exclusive :
    (∀ ops : List LockOp, ((runLocks ops).map Lock.id).Nodup) ∧
    (∀ (locks : List Lock) (l : Lock) (rid u k : String) (now : Nat),
      locks.find? (fun x => x.id == rid) = some l →
      l.eventKey ≠ k →
      datasource.lock locks rid u k now =
        .error ("Record is locked by " ++ l.username) ∧
      applyLockOp locks (.lock rid u k now) = locks) := by
  refine ⟨locksWF_run, ?_⟩
  intro locks l rid u k now hf hne
  have hcond : (l.eventKey == k && l.username == u) = false := by
    have : (l.eventKey == k) = false := by
      simp [hne]
    rw [this]
    rfl
  constructor
  · unfold datasource.lock
    rw [hf]
    simp [hcond]
  · show (match datasource.lock locks rid u k now with
      | .ok locks₁ => locks₁
      | .error _ => locks) = locks
    unfold datasource.lock
    rw [hf]
    simp [hcond]

theorem lock_exclusive_witness :
    datasource.lock [⟨"R1", "alice", "keyA", 0⟩] "R1" "bob" "keyB" 5 =
      .error ("Record is locked by " ++ "alice") ∧
    applyLockOp [⟨"R1", "alice", "keyA", 0⟩]
      (.lock "R1" "bob" "keyB" 5) = [⟨"R1", "alice", "keyA", 0⟩] := by
  have h := lock_exclusive.2 [⟨"R1", "alice", "keyA", 0⟩]
    ⟨"R1", "alice", "keyA", 0⟩ "R1" "bob" "keyB" 5 (by decide) (by decide)
  exact ⟨h.1, h.2⟩

/-! ### Session teardown (src/server.js lines 1608-1618)

```js
ws.on("close", function close() {
    let db = req.url.replaceAll("/", "");
    let tenant = tenants.find((t) => t.pgDatabase === db);
    delete eventSessions[eKey];
    datasource.unsubscribe(eKey, "instance", tenant);
    datasource.unlock({
        eventKey: eKey
    });
    logger.info("Closed instance " + eKey);
});
``` -/

structure ServerState where
  eventSessions : List (String × Handler)
  subscriptions : List Subscription
  locks : List Lock
deriving Repr

def wsClose (s : ServerState) (eKey : String) : ServerState :=
  { eventSessions := eraseKey eKey s.eventSessions
    subscriptions := datasource.unsubscribe s.subscriptions eKey
    locks := datasource.unlock s.locks (.byEventKey eKey) }

/-- Claim C4: closing the transport channel of an event key removes the
key's handler from `eventSessions`, drops every subscription owned by the
key, releases every lock owned by the key, and any message dispatched for
that key afterwards is a no-op: no handler call, no fetch enqueued, no
exception. -/
theorem session_teardown_cleanup (s : ServerState) (eKey : String) :
    lookupKey eKey (wsClose s eKey).eventSessions = none ∧
    (∀ sub ∈ (wsClose s eKey).subscriptions, sub.eventKey ≠ eKey) ∧
    (∀ l ∈ (wsClose s eKey).locks, l.eventKey ≠ eKey) ∧
    (∀ (camel : String → String) (message : EvMessage),
      message.payload.subscription.eventkey = eKey →
      receiver camel (wsClose s eKey).eventSessions message = ⟨[], []⟩) := by
  refine ⟨lookupKey_eraseKey _ _, ?_, ?_, ?_⟩
  · intro sub hsub
    have := List.of_mem_filter hsub
    simpa using this
  · intro l hl
    have := List.of_mem_filter hl
    simpa using this
  · intro camel message hmsg
    unfold receiver
    rw [hmsg]
    rw [show lookupKey eKey (wsClose s eKey).eventSessions = none from
      lookupKey_eraseKey _ _]

theorem session_teardown_cleanup_witness :
    lookupKey "k1"
      (wsClose ⟨[("k1", ⟨true, some "s1", 1⟩), ("k2", ⟨true, some "s2", 2⟩)],
        [⟨"sub1", "k1"⟩, ⟨"sub2", "k2"⟩],
        [⟨"R1", "alice", "k1", 0⟩, ⟨"R2", "bob", "k2", 0⟩]⟩
        "k1").eventSessions = none ∧
    (wsClose ⟨[("k1", ⟨true, some "s1", 1⟩), ("k2", ⟨true, some "s2", 2⟩)],
        [⟨"sub1", "k1"⟩, ⟨"sub2", "k2"⟩],
        [⟨"R1", "alice", "k1", 0⟩, ⟨"R2", "bob", "k2", 0⟩]⟩
        "k1").subscriptions = [⟨"sub2", "k2"⟩] ∧
    receiver id
      (wsClose ⟨[("k1", ⟨true, some "s1", 1⟩), ("k2", ⟨true, some "s2", 2⟩)],
        [⟨"sub1", "k1"⟩, ⟨"sub2", "k2"⟩],
        [⟨"R1", "alice", "k1", 0⟩, ⟨"R2", "bob", "k2", 0⟩]⟩
        "k1").eventSessions
      ⟨⟨⟨"k1", "update"⟩, ⟨"contact", "r1"⟩⟩⟩ = ⟨[], []⟩ := by
  have h := session_teardown_cleanup
    ⟨[("k1", ⟨true, some "s1", 1⟩), ("k2", ⟨true, some "s2", 2⟩)],
      [⟨"sub1", "k1"⟩, ⟨"sub2", "k2"⟩],
      [⟨"R1", "alice", "k1", 0⟩, ⟨"R2", "bob", "k2", 0⟩]⟩ "k1"
  exact ⟨h.1, by decide,
    h.2.2.2 id ⟨⟨⟨"k1", "update"⟩, ⟨"contact", "r1"⟩⟩⟩ rfl⟩

/-! ### Feather metadata subscription
(src/server.js lines 559-577 and 1387-1466)

`registerDataRoute(key)` mounts the CRUD HTTP routes for one feather,
driven by the catalog entry (`isReadOnly`, `plural`); `toSpinalCase` is a
string helper from the core library outside these sources, so it is a
parameter here, and the catalog is the `settings.data.catalog.data` object,
modelled as a total map since the handler is only called with catalogued
names.

`subscribeToFeathers` installs an internal event session (no `sessionID`)
whose handler reacts to a feather change message: for `create` or `update`
it calls `registerDataRoute(message.payload.data.name)`, requests the fresh
feather definition (`getFeather`), and — when that request resolves — sends
`{subscription: {change: "feather", deleted: false}, data: resp}` once to
every event session carrying a `sessionID`; for `delete` it broadcasts the
message's own data with `deleted: true`; in every case it finally renews
its own subscription.  A handler run is modelled as the ordered list of its
side effects, with the asynchronous broadcast effects of the `getFeather`
`.then` continuation appended after the synchronous ones. -/

inductive HttpRoute where
  | get (path : String)
  | post (path : String)
  | patch (path : String)
  | del (path : String)
deriving DecidableEq, Repr

structure CatalogEntry where
  isReadOnly : Bool
  plural : Option String
deriving DecidableEq, Repr

def registerDataRoute (spinal : String → String)
    (catalog : String → CatalogEntry) (key : String) : List HttpRoute :=
  (if (catalog key).isReadOnly then
    [.get ("/:db/data/" ++ spinal key ++ "/:id")]
  else
    [.post ("/:db/data/" ++ spinal key),
     .get ("/:db/data/" ++ spinal key ++ "/:id"),
     .patch ("/:db/data/" ++ spinal key ++ "/:id"),
     .del ("/:db/data/" ++ spinal key ++ "/:id")]) ++
  (match (catalog key).plural with
   | some p => [.post ("/:db/data/" ++ spinal p)]
   | none => [])

structure FeatherMsgData where
  name : String
deriving DecidableEq, Repr

structure FeatherSub where
  change : String
deriving DecidableEq, Repr

structure FeatherPayload where
  subscription : FeatherSub
  data : FeatherMsgData
deriving DecidableEq, Repr

structure FeatherMsg where
  payload : FeatherPayload
deriving DecidableEq, Repr

/-- The `data` of a broadcast notification: the refreshed feather fetched
by `getFeather` (abstracted by a numeric handle), or the change message's
own data in the `delete` branch. -/
inductive FeatherBroadcast where
  | fetched (v : Nat)
  | original (d : FeatherMsgData)
deriving DecidableEq, Repr

inductive FeatherEffect where
  | routeRegistration (name : String)
  | getFeatherRequest (name : String)
  | notify (eventKey : String) (deleted : Bool) (data : FeatherBroadcast)
  | subscriptionRenewal
deriving DecidableEq, Repr

def isRouteRegistration : FeatherEffect → Bool
  | .routeRegistration _ => true
  | _ => false

/-- The sessions iterated by `changeCallback`: every registered handler
whose `sessionID` property is set (src lines 1404-1405). -/
def activeSessions (sessions : List (String × Handler)) :
    List (String × Handler) :=
  sessions.filter (fun kv => kv.2.sessionID.isSome)

/-- The handler installed by `subscribeToFeathers` (src lines 1420-1462),
as the ordered effect trace of one run, given the `getFeather` response
`resp`. -/
def featherSessionHandler (sessions : List (String × Handler))
    (message : FeatherMsg) (resp : Nat) : List FeatherEffect :=
  if message.payload.subscription.change = "create" ∨
      message.payload.subscription.change = "update" then
    [.routeRegistration message.payload.data.name,
     .getFeatherRequest message.payload.data.name,
     .subscriptionRenewal] ++
    (activeSessions sessions).map
      (fun kv => .notify kv.1 false (.fetched resp))
  else if message.payload.subscription.change = "delete" then
    (activeSessions sessions).map
      (fun kv => .notify kv.1 true (.original message.payload.data)) ++
    [.subscriptionRenewal]
  else [.subscriptionRenewal]

/-- Claim C8: a `create` (or `update`) change on the Feather stream runs
`registerDataRoute` exactly once, for the named feather, before any client
notification, and then broadcasts the refreshed definition exactly once to
every registered handler carrying a `sessionID`: the broadcast list is
duplicate-free and contains one notification for each such session. -/
theorem feather_create_registers_once_then_broadcasts
    (sessions : List (String × Handler)) (message : FeatherMsg) (resp : Nat)
    (hch : message.payload.subscription.change = "create" ∨
      message.payload.subscription.change = "update")
    (hnodup : (sessions.map Prod.fst).Nodup) :
    featherSessionHandler sessions message resp =
      [.routeRegistration message.payload.data.name,
       .getFeatherRequest message.payload.data.name,
       .subscriptionRenewal] ++
      (activeSessions sessions).map
        (fun kv => .notify kv.1 false (.fetched resp)) ∧
    (featherSessionHandler sessions message resp).filter isRouteRegistration
      = [.routeRegistration message.payload.data.name] ∧
    ((activeSessions sessions).map
      (fun kv => FeatherEffect.notify kv.1 false (.fetched resp))).Nodup ∧
    (∀ (k : String) (fn : Handler), (k, fn) ∈ sessions →
      fn.sessionID.isSome →
      FeatherEffect.notify k false (.fetched resp) ∈
        featherSessionHandler sessions message resp) := by
  have heq : featherSessionHandler sessions message resp =
      [.routeRegistration message.payload.data.name,
       .getFeatherRequest message.payload.data.name,
       .subscriptionRenewal] ++
      (activeSessions sessions).map
        (fun kv => .notify kv.1 false (.fetched resp)) := by
    unfold featherSessionHandler
    rw [if_pos hch]
  refine ⟨heq, ?_, ?_, ?_⟩
  · rw [heq, List.filter_append]
    have h2 : ((activeSessions sessions).map
        (fun kv => FeatherEffect.notify kv.1 false (.fetched resp))).filter
          isRouteRegistration = [] := by
      rw [List.filter_eq_nil_iff]
      intro a ha
      obtain ⟨kv, hkv, hkva⟩ := List.mem_map.mp ha
      rw [show a = FeatherEffect.notify kv.1 false (.fetched resp)
        from hkva.symm]
      simp [isRouteRegistration]
    rw [h2]
    rfl
  · rw [show (activeSessions sessions).map
        (fun kv => FeatherEffect.notify kv.1 false (.fetched resp)) =
        ((activeSessions sessions).map Prod.fst).map
          (fun k => FeatherEffect.notify k false (.fetched resp)) by
      rw [List.map_map]
      rfl]
    refine List.Nodup.map ?_ ?_
    · intro a b hab
      simpa using hab
    · exact ((List.filter_sublist _).map Prod.fst).nodup hnodup
  · intro k fn hk hs
    rw [heq]
    refine List.mem_append_right _ (List.mem_map.mpr ⟨(k, fn), ?_, rfl⟩)
    exact List.mem_filter.mpr ⟨hk, hs⟩

theorem feather_create_registers_once_then_broadcasts_witness :
    featherSessionHandler
      [("a", ⟨true, some "s1", 1⟩), ("b", ⟨true, none, 2⟩),
        ("c", ⟨true, some "s2", 3⟩)]
      ⟨⟨⟨"create"⟩, ⟨"Contact"⟩⟩⟩ 9 =
      [.routeRegistration "Contact", .getFeatherRequest "Contact",
       .subscriptionRenewal, .notify "a" false (.fetched 9),
       .notify "c" false (.fetched 9)] := by
  have h := feather_create_registers_once_then_broadcasts
    [("a", ⟨true, some "s1", 1⟩), ("b", ⟨true, none, 2⟩),
      ("c", ⟨true, some "s2", 3⟩)]
    ⟨⟨⟨"create"⟩, ⟨"Contact"⟩⟩⟩ 9 (Or.inl rfl) (by decide)
  rw [h.1]
  decide

end Featherbone
